import Mathlib

/-!
Shallow embedding of the `blockhouse` trading API (files `app/main.py` and
`app/models.py`) together with the broadcast connection registry that those
files use.  Connections are opaque handles, modelled as natural numbers with
decidable equality.  Machine floats of the source are modelled as rationals,
Python ints as integers, and Python exceptions as `Except` / explicit error
components.
-/

/-- A connection handle: an opaque identity for one live push channel. -/
abbrev Conn := Nat

/-- Modelled from the spec: the Broadcast Registry (`ConnectionManager` in
`app/routes/websocket.py`, called `manager.connect` from `main.py`) is not
under `src/`.  Per the spec, `Register(connection)` "adds connection to the
live set"; a duplicate registration is "treated as a no-op/idempotent
success", keeping the invariant that "the set never contains a duplicate
handle for the same underlying connection". -/
def register (s : List Conn) (c : Conn) : List Conn :=
  if c ∈ s then s else c :: s

/-- Modelled from the spec: `Deregister(connection)` (`manager.disconnect`)
"removes connection from the live set if present"; "removing an absent
connection is a no-op, not an error". -/
def deregister (s : List Conn) (c : Conn) : List Conn :=
  s.erase c

/-- One attempted send over a connection.  The environment `fails` says which
connections' channels are closed or erroring; a send over such a channel
raises, modelled as `Except.error`. -/
def send (fails : Conn → Bool) (c : Conn) : Except Unit Unit :=
  if fails c then .error () else .ok ()

/-- Modelled from the spec: `Broadcast(payload)` (`manager.broadcast`)
"attempts to send payload to every currently registered connection";
"per-recipient failure ... must not abort delivery to the remaining
recipients and must not raise an error to the caller".  Each member's send
is attempted in turn; a failing send is caught and the recipient skipped.
The result is the list of successful deliveries `(recipient, payload)`;
the function is total, so the broadcast always completes normally. -/
def broadcast (fails : Conn → Bool) (payload : String) : List Conn → List (Conn × String)
  | [] => []
  | c :: rest =>
    match send fails c with
    | .ok _ => (c, payload) :: broadcast fails payload rest
    | .error _ => broadcast fails payload rest

/-- `broadcast` delivers to exactly the members whose send succeeds, in
membership order. -/
theorem broadcast_eq_filter (fails : Conn → Bool) (payload : String) (s : List Conn) :
    broadcast fails payload s
      = (s.filter (fun c => !fails c)).map (fun c => (c, payload)) := by
  induction s with
  | nil => rfl
  | cons c rest ih =>
    by_cases h : fails c = true
    · simp [broadcast, send, h, ih]
    · simp at h
      simp [broadcast, send, h, ih]

/-- `register` preserves the no-duplicates invariant of the live set. -/
theorem register_nodup {s : List Conn} (hs : s.Nodup) (c : Conn) :
    (register s c).Nodup := by
  unfold register
  by_cases h : c ∈ s
  · simpa [h] using hs
  · simp only [if_neg h]
    exact List.nodup_cons.mpr ⟨h, hs⟩

/-- `deregister` preserves the no-duplicates invariant of the live set. -/
theorem deregister_nodup {s : List Conn} (hs : s.Nodup) (c : Conn) :
    (deregister s c).Nodup :=
  hs.erase c

/-- Membership after `register`. -/
theorem mem_register (s : List Conn) (c d : Conn) :
    d ∈ register s c ↔ d = c ∨ d ∈ s := by
  unfold register
  by_cases h : c ∈ s
  · simp only [if_pos h]
    constructor
    · exact Or.inr
    · rintro (rfl | hd)
      · exact h
      · exact hd
  · simp [h]

/-- `app/models.py`, class `OrderBase`: the validated request body for order
creation.  Prices (Python `float`) are modelled as rationals, quantities
(Python `int`) as integers. -/
structure OrderBase where
  symbol : String
  price : ℚ
  quantity : ℤ
  order_type : String
deriving Repr, DecidableEq

/-- `app/models.py`, validator `price_must_be_positive`:
raises `ValueError` when `v <= 0`, otherwise returns `v`. -/
def price_must_be_positive (v : ℚ) : Except String ℚ :=
  if v ≤ 0 then .error "Price must be positive" else .ok v

/-- `app/models.py`, validator `quantity_must_be_positive`:
raises `ValueError` when `v <= 0`, otherwise returns `v`. -/
def quantity_must_be_positive (v : ℤ) : Except String ℤ :=
  if v ≤ 0 then .error "Quantity must be positive" else .ok v

/-- Python `str.upper()` as used by the app (ASCII case mapping: each
character is replaced by its uppercase form). -/
def pyUpper (s : String) : String := ⟨s.data.map Char.toUpper⟩

/-- `app/models.py`, validator `order_type_must_be_valid`:
raises `ValueError` when `v.upper()` is not in `['BUY', 'SELL']`,
otherwise returns `v.upper()`. -/
def order_type_must_be_valid (v : String) : Except String String :=
  if pyUpper v ∈ ["BUY", "SELL"] then .ok (pyUpper v)
  else .error "Order type must be either BUY or SELL"

/-- Pydantic construction of an `OrderBase` value: all three field
validators must pass; the stored `order_type` is the value returned by its
validator (the uppercase normal form). -/
def mkOrderBase (symbol : String) (price : ℚ) (quantity : ℤ) (order_type : String) :
    Except String OrderBase := do
  let p ← price_must_be_positive price
  let q ← quantity_must_be_positive quantity
  let t ← order_type_must_be_valid order_type
  pure { symbol := symbol, price := p, quantity := q, order_type := t }

/-- A persisted order row (`database.OrderModel` as built and read by
`app/main.py`): id, symbol, price, quantity, order_type, and the ISO8601
timestamp string produced by `timestamp.isoformat()`. -/
structure OrderModel where
  id : ℤ
  symbol : String
  price : ℚ
  quantity : ℤ
  order_type : String
  timestamp : String
deriving Repr, DecidableEq

/-- The JSON value language used for broadcast payloads
(`json.dumps` arguments in `app/main.py`). -/
inductive Json where
  | str : String → Json
  | num : ℚ → Json
  | int : ℤ → Json
  | obj : List (String × Json) → Json
deriving Repr

/-- Look up a key of a JSON object (first binding wins). -/
def jsonField (j : Json) (k : String) : Option Json :=
  match j with
  | .obj fs => (fs.find? (fun kv => kv.1 == k)).map (fun kv => kv.2)
  | _ => none

/-- The `new_order` envelope broadcast by `create_order`
(`app/main.py` lines 72-84), field for field. -/
def new_order_payload (o : OrderModel) : Json :=
  .obj [("event", .str "new_order"),
        ("data", .obj [("id", .int o.id),
                       ("symbol", .str o.symbol),
                       ("price", .num o.price),
                       ("quantity", .int o.quantity),
                       ("order_type", .str o.order_type),
                       ("timestamp", .str o.timestamp)])]

/-- The `delete_order` envelope broadcast by `delete_order`
(`app/main.py` lines 153-158). -/
def delete_order_payload (order_id : ℤ) : Json :=
  .obj [("event", .str "delete_order"),
        ("data", .obj [("id", .int order_id)])]

/-- The observable server state the handlers touch: the order store, the
next primary key the database will assign, and the log of payloads handed
to `manager.broadcast` (each such payload goes to every registered
connection). -/
structure AppState where
  orders : List OrderModel
  nextId : ℤ
  broadcasts : List Json

/-- An `HTTPException` as raised in `app/main.py`. -/
structure HttpError where
  status_code : ℕ
  detail : String
deriving Repr, DecidableEq

/-- `app/main.py`, `create_order` (lines 59-92): builds the row with the
uppercased symbol and the request's price, quantity and order_type, commits
it (the database assigns the id), refreshes, and only then broadcasts the
`new_order` envelope built from the committed row.  Returns the new state
and the created row. -/
def create_order (order : OrderBase) (now : String) (st : AppState) :
    AppState × OrderModel :=
  let db_order : OrderModel :=
    { id := st.nextId
      symbol := pyUpper order.symbol
      price := order.price
      quantity := order.quantity
      order_type := order.order_type
      timestamp := now }
  let committed : AppState :=
    { st with orders := st.orders ++ [db_order], nextId := st.nextId + 1 }
  ({ committed with
      broadcasts := committed.broadcasts ++ [new_order_payload db_order] },
   db_order)

/-- FastAPI runs the pydantic validators on the request body before the
`create_order` handler: a validation failure is returned to the client and
the handler body never runs. -/
def handle_create_order (symbol : String) (price : ℚ) (quantity : ℤ)
    (order_type : String) (now : String) (st : AppState) :
    Except String (AppState × OrderModel) :=
  match mkOrderBase symbol price quantity order_type with
  | .error e => .error e
  | .ok order => .ok (create_order order now st)

/-- The `filter(OrderModel.id == order_id).first()` query of `app/main.py`. -/
def find_order (orders : List OrderModel) (order_id : ℤ) : Option OrderModel :=
  orders.find? (fun o => o.id == order_id)

/-- `app/main.py`, `get_order` (lines 115-130): returns the order with the
requested id, or raises HTTP 404 when the query finds none. -/
def get_order (order_id : ℤ) (st : AppState) : Except HttpError OrderModel :=
  match find_order st.orders order_id with
  | none => .error ⟨404, s!"Order with id {order_id} not found"⟩
  | some o => .ok o

/-- `app/main.py`, `delete_order` (lines 136-158): raises HTTP 404 when the
query finds no order with the requested id, leaving the state untouched;
otherwise deletes the row, commits, and only then broadcasts the
`delete_order` envelope.  The result pairs the state after the call with
the error raised, if any. -/
def delete_order (order_id : ℤ) (st : AppState) : AppState × Option HttpError :=
  match find_order st.orders order_id with
  | none => (st, some ⟨404, s!"Order with id {order_id} not found"⟩)
  | some _ =>
    ({ orders := st.orders.eraseP (fun o => o.id == order_id)
       nextId := st.nextId
       broadcasts := st.broadcasts ++ [delete_order_payload order_id] },
     none)

/-- `app/main.py`, `websocket_endpoint` (lines 163-175): registers the new
connection, then loops — receive a text, broadcast it to all registered
connections — until a receive fails; the exception handler then deregisters
exactly this connection.  `msgs` is the sequence of texts received before
the channel closed or errored; `conns` is the live set when the connection
arrives.  Returns the live set after the session and the delivery log of
each in-loop broadcast. -/
def websocket_endpoint (conns : List Conn) (ws : Conn) (msgs : List String)
    (fails : Conn → Bool) : List Conn × List (List (Conn × String)) :=
  let s := register conns ws
  (deregister s ws, msgs.map (fun m => broadcast fails m s))

/-- One call to the registry: a Register or a Deregister of a connection. -/
inductive RegOp where
  | reg : Conn → RegOp
  | dereg : Conn → RegOp
deriving Repr, DecidableEq

/-- The connection an operation concerns. -/
def RegOp.conn : RegOp → Conn
  | .reg c => c
  | .dereg c => c

/-- Whether the operation is a Register. -/
def RegOp.isReg : RegOp → Bool
  | .reg _ => true
  | .dereg _ => false

/-- Apply one registry call to the live set. -/
def applyOp (s : List Conn) : RegOp → List Conn
  | .reg c => register s c
  | .dereg c => deregister s c

/-- Apply a finite sequence of registry calls in order. -/
def applyOps (s : List Conn) (ops : List RegOp) : List Conn :=
  ops.foldl applyOp s

/-- Whether the last operation of the sequence that touches `c` is a
Register. -/
def lastIsReg (ops : List RegOp) (c : Conn) : Bool :=
  match (ops.filter (fun o => o.conn == c)).getLast? with
  | some o => o.isReg
  | none => false

/-- Every registry call preserves the no-duplicates invariant. -/
theorem applyOp_nodup {s : List Conn} (hs : s.Nodup) (o : RegOp) :
    (applyOp s o).Nodup := by
  cases o with
  | reg c => exact register_nodup hs c
  | dereg c => exact deregister_nodup hs c

/-- Every sequence of registry calls preserves the no-duplicates invariant. -/
theorem applyOps_nodup (ops : List RegOp) {s : List Conn} (hs : s.Nodup) :
    (applyOps s ops).Nodup := by
  induction ops generalizing s with
  | nil => exact hs
  | cons o rest ih => exact ih (applyOp_nodup hs o)

/-- Generalised last-writer-wins lemma: after a sequence of registry calls
on a duplicate-free start set, `c` is live iff its last operation was a
Register, or no operation touched it and it was live at the start. -/
theorem mem_applyOps_iff (ops : List RegOp) (s : List Conn) (hs : s.Nodup)
    (c : Conn) :
    c ∈ applyOps s ops ↔
      (lastIsReg ops c = true ∨
        (ops.filter (fun o => o.conn == c) = [] ∧ c ∈ s)) := by
  induction ops using List.reverseRecOn with
  | nil => simp [applyOps, lastIsReg]
  | append_singleton rest o ih =>
    have hrest : (applyOps s rest).Nodup := applyOps_nodup rest hs
    have happ : applyOps s (rest ++ [o]) = applyOp (applyOps s rest) o := by
      simp [applyOps]
    rw [happ]
    by_cases hoc : o.conn = c
    · have hfil : (rest ++ [o]).filter (fun o => o.conn == c)
          = rest.filter (fun o => o.conn == c) ++ [o] := by
        simp [List.filter_append, hoc]
      have hlast : lastIsReg (rest ++ [o]) c = o.isReg := by
        simp [lastIsReg, hfil, List.getLast?_concat]
      cases o with
      | reg d =>
        have hdc : d = c := hoc
        subst hdc
        simp [applyOp, mem_register, hlast, RegOp.isReg, hfil]
      | dereg d =>
        have hdc : d = c := hoc
        subst hdc
        simp [applyOp, deregister, hrest.mem_erase_iff, hlast, RegOp.isReg,
          hfil]
    · have hfil : (rest ++ [o]).filter (fun o => o.conn == c)
          = rest.filter (fun o => o.conn == c) := by
        simp [List.filter_append, hoc]
      have hlast : lastIsReg (rest ++ [o]) c = lastIsReg rest c := by
        simp [lastIsReg, hfil]
      cases o with
      | reg d =>
        have hdc : c ≠ d := fun h => hoc (by simpa [RegOp.conn] using h.symm)
        rw [hlast, hfil]
        simp [applyOp, mem_register, hdc, ih]
      | dereg d =>
        have hdc : c ≠ d := fun h => hoc (by simpa [RegOp.conn] using h.symm)
        rw [hlast, hfil]
        simp [applyOp, deregister, hrest.mem_erase_iff, hdc, ih]

/-- Claim C1: if one registered connection's send fails during a broadcast,
that connection receives nothing, but the broadcast still attempts delivery
to every other registered connection — each other member whose channel works
receives the payload — and completes normally, returning its delivery list
to the caller instead of raising an error. -/
theorem broadcast_survives_send_failure (fails : Conn → Bool) (p : String)
    (s : List Conn) (a : Conn) (ha : fails a = true) :
    broadcast fails p s = (s.filter (fun c => !fails c)).map (fun c => (c, p)) ∧
      (a, p) ∉ broadcast fails p s ∧
      ∀ c ∈ s, c ≠ a → fails c = false → (c, p) ∈ broadcast fails p s := by
  refine ⟨broadcast_eq_filter fails p s, ?_, ?_⟩
  · rw [broadcast_eq_filter]
    simp [List.mem_filter, ha]
  · intro c hc _ hcf
    rw [broadcast_eq_filter]
    exact List.mem_map_of_mem _ (List.mem_filter.mpr ⟨hc, by simp [hcf]⟩)

/-- Witness for C1: with connection 0 failing, connection 1 still receives. -/
theorem broadcast_survives_send_failure_witness :
    (fun c : Conn => c == 0) 0 = true ∧
      (0, "x") ∉ broadcast (fun c : Conn => c == 0) "x" [0, 1] ∧
      (1, "x") ∈ broadcast (fun c : Conn => c == 0) "x" [0, 1] := by
  have h := broadcast_survives_send_failure (fun c : Conn => c == 0) "x"
    [0, 1] 0 rfl
  exact ⟨rfl, h.2.1, h.2.2 1 (by decide) (by decide) rfl⟩

/-- Claim C2: registering the same connection twice leaves the live set with
exactly one entry for it, and a subsequent broadcast delivers exactly one
copy of the payload to that connection. -/
theorem register_twice_one_copy (s : List Conn) (c : Conn)
    (fails : Conn → Bool) (p : String) (hs : s.Nodup) (hc : fails c = false) :
    (register (register s c) c).count c = 1 ∧
      (broadcast fails p (register (register s c) c)).countP
          (fun d => d.1 == c) = 1 := by
  have hmem : c ∈ register s c := (mem_register s c c).mpr (Or.inl rfl)
  have hn : (register s c).Nodup := register_nodup hs c
  have h1 : register (register s c) c = register s c := by
    rw [register, if_pos hmem]
  constructor
  · rw [h1]
    exact List.count_eq_one_of_mem hn hmem
  · rw [h1, broadcast_eq_filter,
      List.countP_map (fun d : Conn × String => d.1 == c)
        (fun x : Conn => (x, p)) ((register s c).filter (fun x => !fails x))]
    have h3 : c ∈ (register s c).filter (fun x => !fails x) :=
      List.mem_filter.mpr ⟨hmem, by simp [hc]⟩
    exact List.count_eq_one_of_mem (hn.filter _) h3

/-- Witness for C2 at connection 0, starting from the empty live set. -/
theorem register_twice_one_copy_witness :
    (register (register [] 0) 0).count 0 = 1 ∧
      (broadcast (fun _ => false) "z" (register (register [] 0) 0)).countP
          (fun d => d.1 == 0) = 1 :=
  register_twice_one_copy [] 0 (fun _ => false) "z" List.nodup_nil rfl

/-- Claim C3: deregistering a connection that is not in the live set (never
registered, or already deregistered from a duplicate-free set) is a no-op
that leaves the live set unchanged; `deregister` is total, so no error is
raised. -/
theorem deregister_absent_noop (s : List Conn) (c : Conn) :
    (c ∉ s → deregister s c = s) ∧
      (s.Nodup → deregister (deregister s c) c = deregister s c) := by
  constructor
  · exact List.erase_of_not_mem
  · intro hs
    exact List.erase_of_not_mem hs.not_mem_erase

/-- Witness for C3: removing absent 5 is a no-op, and a second removal of 1
after the first is a no-op. -/
theorem deregister_absent_noop_witness :
    deregister [1, 2] 5 = [1, 2] ∧
      deregister (deregister [1, 2] 1) 1 = deregister [1, 2] 1 :=
  ⟨(deregister_absent_noop [1, 2] 5).1 (by decide),
   (deregister_absent_noop [1, 2] 1).2 (by decide)⟩

/-- Claim C4: for every finite sequence of Register/Deregister calls applied
to the (initially empty) registry, the resulting live set is exactly the set
of connections whose last operation in the sequence was a Register. -/
theorem applyOps_last_writer_wins (ops : List RegOp) (c : Conn) :
    c ∈ applyOps [] ops ↔ lastIsReg ops c = true := by
  simpa using mem_applyOps_iff ops [] List.nodup_nil c

/-- Claim C5: after Register(A) and Register(B), broadcasting "x" reaches
both A and B; after Deregister(A), broadcasting "y" reaches B and not A —
each broadcast reaches exactly the live set at the time of the call. -/
theorem broadcast_reaches_live_set (A B : Conn) (fails : Conn → Bool)
    (hAB : A ≠ B) (hA : fails A = false) (hB : fails B = false) :
    ((A, "x") ∈ broadcast fails "x" (register (register [] A) B) ∧
      (B, "x") ∈ broadcast fails "x" (register (register [] A) B)) ∧
      ((B, "y") ∈ broadcast fails "y"
          (deregister (register (register [] A) B) A) ∧
        (A, "y") ∉ broadcast fails "y"
          (deregister (register (register [] A) B) A)) := by
  have hBA : B ≠ A := hAB.symm
  have h1 : register ([] : List Conn) A = [A] := by simp [register]
  have h2 : register [A] B = [B, A] := by simp [register, hBA]
  have h3 : deregister [B, A] A = [B] := by
    simp [deregister, List.erase_cons, hBA]
  rw [h1, h2, h3]
  simp [broadcast, send, hA, hB, hAB, hBA]

/-- Witness for C5 with connections 0 and 1 and no failing channel. -/
theorem broadcast_reaches_live_set_witness :
    ((0, "x") ∈ broadcast (fun _ => false) "x" (register (register [] 0) 1) ∧
      (1, "x") ∈ broadcast (fun _ => false) "x" (register (register [] 0) 1)) ∧
      ((1, "y") ∈ broadcast (fun _ => false) "y"
          (deregister (register (register [] 0) 1) 0) ∧
        (0, "y") ∉ broadcast (fun _ => false) "y"
          (deregister (register (register [] 0) 1) 0)) :=
  broadcast_reaches_live_set 0 1 (fun _ => false) (by decide) rfl rfl

/-- Claim C7: when a connection's receive loop observes a failing channel,
the endpoint deregisters exactly that connection — it is not in the live set
after its session, while every other registered connection still is — and
the loop terminates (`websocket_endpoint` is a total function). -/
theorem websocket_failed_conn_removed (conns : List Conn) (ws : Conn)
    (msgs : List String) (fails : Conn → Bool) (hc : conns.Nodup) :
    ws ∉ (websocket_endpoint conns ws msgs fails).1 ∧
      ∀ c ∈ conns, c ≠ ws → c ∈ (websocket_endpoint conns ws msgs fails).1 := by
  have hreg : (register conns ws).Nodup := register_nodup hc ws
  constructor
  · show ws ∉ (register conns ws).erase ws
    exact hreg.not_mem_erase
  · intro c hcin hne
    show c ∈ (register conns ws).erase ws
    exact (List.mem_erase_of_ne hne).mpr
      ((mem_register conns ws c).mpr (Or.inr hcin))

/-- Witness for C7: connection 1's session ends on a failing channel; 1 is
gone from the live set and 2 remains. -/
theorem websocket_failed_conn_removed_witness :
    1 ∉ (websocket_endpoint [2] 1 ["m"] (fun _ => true)).1 ∧
      2 ∈ (websocket_endpoint [2] 1 ["m"] (fun _ => true)).1 := by
  have h := websocket_failed_conn_removed [2] 1 ["m"] (fun _ => true) (by decide)
  exact ⟨h.1, h.2 2 (by decide) (by decide)⟩

/-- `mkOrderBase` spelled out as nested conditionals, in validator order. -/
theorem mkOrderBase_eq (symbol : String) (price : ℚ) (quantity : ℤ)
    (order_type : String) :
    mkOrderBase symbol price quantity order_type
      = if price ≤ 0 then .error "Price must be positive"
        else if quantity ≤ 0 then .error "Quantity must be positive"
        else if pyUpper order_type ∈ ["BUY", "SELL"] then
          .ok ⟨symbol, price, quantity, pyUpper order_type⟩
        else .error "Order type must be either BUY or SELL" := by
  unfold mkOrderBase price_must_be_positive quantity_must_be_positive
    order_type_must_be_valid
  split_ifs <;> rfl

/-- Claim C8: constructing an order body succeeds iff price > 0,
quantity > 0, and the order type is case-insensitively BUY or SELL; on
success the stored order type is the uppercase normal form (the other fields
kept verbatim); on any violation a validation error is raised before the
handler runs, so the order never reaches the store or the broadcast path. -/
theorem mkOrderBase_valid_iff (symbol : String) (price : ℚ) (quantity : ℤ)
    (order_type : String) :
    ((mkOrderBase symbol price quantity order_type).isOk = true ↔
      (0 < price ∧ 0 < quantity ∧
        (pyUpper order_type = "BUY" ∨ pyUpper order_type = "SELL"))) ∧
      (∀ ob, mkOrderBase symbol price quantity order_type = .ok ob →
        ob = ⟨symbol, price, quantity, pyUpper order_type⟩) ∧
      (∀ now st,
        (mkOrderBase symbol price quantity order_type).isOk = false →
        ∃ e, handle_create_order symbol price quantity order_type now st
          = .error e) := by
  unfold handle_create_order
  rw [mkOrderBase_eq]
  split_ifs with h1 h2 h3
  · simp [Except.isOk, Except.toBool, not_lt.mpr h1]
  · simp [Except.isOk, Except.toBool, not_lt.mpr h2]
  · refine ⟨?_, ?_, ?_⟩
    · simp only [Except.isOk, Except.toBool, true_iff]
      refine ⟨not_le.mp h1, not_le.mp h2, ?_⟩
      simpa using h3
    · intro ob hob
      exact (Except.ok.inj hob).symm
    · intro now st h
      simp [Except.isOk, Except.toBool] at h
  · have h4 : ¬(pyUpper order_type = "BUY" ∨ pyUpper order_type = "SELL") := by
      simpa using h3
    simp [Except.isOk, Except.toBool, h4]

/-- Witness for C8: a lowercase "buy" at positive price and quantity
validates, and a non-positive price is rejected before the handler runs. -/
theorem mkOrderBase_valid_iff_witness :
    (mkOrderBase "acme" 5 3 "buy").isOk = true ∧
      (∃ e, handle_create_order "acme" 0 3 "buy" "t" (AppState.mk [] 1 [])
        = .error e) := by
  refine ⟨?_, ?_⟩
  · exact (mkOrderBase_valid_iff "acme" 5 3 "buy").1.mpr
      ⟨by norm_num, by norm_num, Or.inl (by decide)⟩
  · exact (mkOrderBase_valid_iff "acme" 0 3 "buy").2.2 "t"
      (AppState.mk [] 1 []) (by decide)

/-- Claim C6: a successful creation appends exactly one broadcast, the
`new_order` envelope carrying the created order's field values, after the
commit; a successful deletion appends exactly one broadcast, the
`delete_order` envelope carrying the deleted id; a failed deletion appends
no broadcast. -/
theorem crud_broadcast_envelopes (order : OrderBase) (now : String)
    (order_id : ℤ) (st : AppState) :
    (create_order order now st).1.broadcasts
        = st.broadcasts
          ++ [Json.obj
                [("event", Json.str "new_order"),
                 ("data", Json.obj
                    [("id", Json.int st.nextId),
                     ("symbol", Json.str (pyUpper order.symbol)),
                     ("price", Json.num order.price),
                     ("quantity", Json.int order.quantity),
                     ("order_type", Json.str order.order_type),
                     ("timestamp", Json.str now)])]] ∧
      ((delete_order order_id st).2 = none →
        (delete_order order_id st).1.broadcasts
          = st.broadcasts
            ++ [Json.obj [("event", Json.str "delete_order"),
                          ("data", Json.obj [("id", Json.int order_id)])]]) ∧
      ((delete_order order_id st).2.isSome = true →
        (delete_order order_id st).1.broadcasts = st.broadcasts) := by
  refine ⟨rfl, ?_, ?_⟩ <;>
    (unfold delete_order;
     rcases hfind : find_order st.orders order_id with _ | o <;>
       simp [hfind, delete_order_payload])

/-- Witness for C6's delete clauses: deleting the present order 1 appends
the `delete_order` envelope; deleting from an empty store appends nothing. -/
theorem crud_broadcast_envelopes_witness :
    (delete_order 1
        (AppState.mk [OrderModel.mk 1 "AAPL" 5 3 "BUY" "t0"] 2 [])).1.broadcasts
      = (AppState.mk [OrderModel.mk 1 "AAPL" 5 3 "BUY" "t0"] 2 []).broadcasts
        ++ [Json.obj [("event", Json.str "delete_order"),
                      ("data", Json.obj [("id", Json.int 1)])]] ∧
      (delete_order 7 (AppState.mk [] 1 [])).1.broadcasts
        = (AppState.mk [] 1 []).broadcasts :=
  ⟨(crud_broadcast_envelopes (OrderBase.mk "A" 1 1 "BUY") "t" 1
      (AppState.mk [OrderModel.mk 1 "AAPL" 5 3 "BUY" "t0"] 2 [])).2.1 rfl,
   (crud_broadcast_envelopes (OrderBase.mk "A" 1 1 "BUY") "t" 7
      (AppState.mk [] 1 [])).2.2 rfl⟩

/-- Claim C9: every successfully created order persists the uppercase form
of the client-supplied symbol, and the `new_order` broadcast payload carries
that same uppercase symbol in its `data.symbol` field. -/
theorem created_symbol_uppercased (symbol : String) (price : ℚ) (quantity : ℤ)
    (order_type now : String) (st st' : AppState) (o : OrderModel)
    (h : handle_create_order symbol price quantity order_type now st
      = .ok (st', o)) :
    o.symbol = pyUpper symbol ∧ o ∈ st'.orders ∧
      st'.broadcasts.getLast? = some (new_order_payload o) ∧
      ((st'.broadcasts.getLast?.bind (fun j => jsonField j "data")).bind
          (fun j => jsonField j "symbol")) = some (.str (pyUpper symbol)) := by
  unfold handle_create_order at h
  rw [mkOrderBase_eq] at h
  split_ifs at h
  have hco := Except.ok.inj h
  have hst : st' = (create_order
      ⟨symbol, price, quantity, pyUpper order_type⟩ now st).1 :=
    (congrArg Prod.fst hco).symm
  have ho : o = (create_order
      ⟨symbol, price, quantity, pyUpper order_type⟩ now st).2 :=
    (congrArg Prod.snd hco).symm
  subst hst
  subst ho
  refine ⟨rfl, ?_, ?_, ?_⟩
  · simp [create_order]
  · show (st.broadcasts ++ [new_order_payload _]).getLast? = _
    rw [List.getLast?_concat]
    rfl
  · show ((st.broadcasts ++ [new_order_payload _]).getLast?.bind
        (fun j => jsonField j "data")).bind (fun j => jsonField j "symbol") = _
    rw [List.getLast?_concat]
    rfl

/-- Witness for C9: creating from lowercase "aapl" stores and broadcasts
"AAPL". -/
theorem created_symbol_uppercased_witness :
    (OrderModel.mk 1 "AAPL" 5 3 "BUY" "t").symbol = pyUpper "aapl" ∧
      OrderModel.mk 1 "AAPL" 5 3 "BUY" "t"
          ∈ (AppState.mk [OrderModel.mk 1 "AAPL" 5 3 "BUY" "t"] 2
              [new_order_payload (OrderModel.mk 1 "AAPL" 5 3 "BUY" "t")]).orders ∧
      (AppState.mk [OrderModel.mk 1 "AAPL" 5 3 "BUY" "t"] 2
          [new_order_payload (OrderModel.mk 1 "AAPL" 5 3 "BUY" "t")]).broadcasts.getLast?
        = some (new_order_payload (OrderModel.mk 1 "AAPL" 5 3 "BUY" "t")) ∧
      (((AppState.mk [OrderModel.mk 1 "AAPL" 5 3 "BUY" "t"] 2
          [new_order_payload (OrderModel.mk 1 "AAPL" 5 3 "BUY" "t")]).broadcasts.getLast?.bind
            (fun j => jsonField j "data")).bind (fun j => jsonField j "symbol"))
        = some (.str (pyUpper "aapl")) :=
  created_symbol_uppercased "aapl" 5 3 "buy" "t" (AppState.mk [] 1 [])
    (AppState.mk [OrderModel.mk 1 "AAPL" 5 3 "BUY" "t"] 2
      [new_order_payload (OrderModel.mk 1 "AAPL" 5 3 "BUY" "t")])
    (OrderModel.mk 1 "AAPL" 5 3 "BUY" "t") rfl

/-- Claim C10: `get_order` and `delete_order` raise HTTP 404 exactly when no
order with the requested id exists, and in that case `delete_order` leaves
the whole state — order store and broadcast log — unchanged. -/
theorem http404_iff_absent (order_id : ℤ) (st : AppState) :
    ((∃ e, get_order order_id st = .error e) ↔
        ∀ o ∈ st.orders, o.id ≠ order_id) ∧
      ((delete_order order_id st).2.isSome = true ↔
        ∀ o ∈ st.orders, o.id ≠ order_id) ∧
      (∀ e, get_order order_id st = .error e → e.status_code = 404) ∧
      (∀ e, (delete_order order_id st).2 = some e → e.status_code = 404) ∧
      ((delete_order order_id st).2.isSome = true →
        (delete_order order_id st).1 = st) := by
  unfold get_order delete_order
  rcases hfind : find_order st.orders order_id with _ | o
  · have habs : ∀ o ∈ st.orders, o.id ≠ order_id := by
      intro o ho
      simpa using List.find?_eq_none.mp hfind o ho
    simp [hfind, habs]
    exact habs
  · have hmem : o ∈ st.orders := List.mem_of_find?_eq_some hfind
    have hid : o.id = order_id := by simpa using List.find?_some hfind
    have hnabs : ¬∀ o ∈ st.orders, o.id ≠ order_id := fun hall =>
      hall o hmem hid
    simp [hfind, hnabs]

/-- Witness for C10: deleting id 7 from an empty store 404s and leaves the
state unchanged. -/
theorem http404_iff_absent_witness :
    (delete_order 7 (AppState.mk [] 1 [])).2.isSome = true ∧
      (delete_order 7 (AppState.mk [] 1 [])).1 = AppState.mk [] 1 [] := by
  have h := http404_iff_absent 7 (AppState.mk [] 1 [])
  have h1 : (delete_order 7 (AppState.mk [] 1 [])).2.isSome = true :=
    h.2.1.mpr (by simp)
  exact ⟨h1, h.2.2.2.2 h1⟩
